import Mathlib

/-!
Shallow embedding of the API access and caching subsystem of the
Eclipse-comics repository: the error normalizer and classifier
(utils/apiHelpers.js), the retry loop and deduplication gate of the HTTP
wrapper (services/apiWrapper.js), the sliding-window rate limiter
(utils/rateLimiter.js), the two-tier cache (services/cacheManager.js) and
the parameter-validating API facade (services/api.js).

JavaScript dynamic values are modelled by small inductive types carrying
the distinctions the code actually inspects (truthiness, the string/number
split on the status field, presence of a message).  JavaScript Map objects
are modelled by association lists in insertion order, since both the cache
eviction policy and Map.set/Map.delete semantics depend on insertion
order.  Times are integers (milliseconds, Date.now()).
-/

/-- JS String.prototype.includes on character lists. -/
def charsContains (pat : List Char) : List Char → Bool
  | [] => pat.isEmpty
  | c :: rest => pat.isPrefixOf (c :: rest) || charsContains pat rest

/-- JS s.includes(pat): substring containment. -/
def jsIncludes (s pat : String) : Bool := charsContains pat.data s.data

/-- ASCII lower-casing of one character (the error-message phrases matched
by the code are ASCII). -/
def charToLower (c : Char) : Char :=
  if 'A' ≤ c ∧ c ≤ 'Z' then Char.ofNat (c.toNat + 32) else c

/-- JS String.prototype.toLowerCase (ASCII fragment). -/
def jsToLower (s : String) : String := ⟨s.data.map charToLower⟩

/-- JS String.prototype.trim: strip whitespace from both ends. -/
def jsTrim (s : String) : String :=
  ⟨((s.data.dropWhile Char.isWhitespace).reverse.dropWhile Char.isWhitespace).reverse⟩

/-- Value of a decimal digit string (helper for parseInt). -/
def digitsToNat : List Char → Nat
  | [] => 0
  | c :: cs => (c.toNat - 48) * 10 ^ cs.length + digitsToNat cs

/-- JS parseInt(s, 10): skip leading whitespace, optional sign, then the
longest prefix of decimal digits; none models NaN (no digit found). -/
def jsParseInt (s : String) : Option Int :=
  let t := s.data.dropWhile Char.isWhitespace
  let signAndRest : Int × List Char :=
    match t with
    | '-' :: r => (-1, r)
    | '+' :: r => (1, r)
    | r => (1, r)
  let digits := signAndRest.2.takeWhile Char.isDigit
  if digits.isEmpty then none
  else some (signAndRest.1 * (digitsToNat digits : Int))

/-- The value of a dynamically typed status field: absent (undefined or
null), a number (an HTTP status code), or a string (the standardized
status tag, or an envelope status such as failed). -/
inductive JStatus where
  | undef
  | num (n : Int)
  | str (s : String)
deriving DecidableEq, Repr

/-- JS truthiness of a status value: undefined and null are falsy, the
number 0 is falsy, the empty string is falsy. -/
def JStatus.truthy : JStatus → Bool
  | .undef => false
  | .num n => n != 0
  | .str s => s != ""

/-- JS strict equality of a status value against a number literal (a
string status is never strictly equal to a number). -/
def jsEqNum (v : JStatus) (k : Int) : Bool :=
  match v with
  | .num n => n = k
  | _ => false

/-- JS numeric coercion of a string for a relational comparison: the empty
(or all-whitespace) string coerces to 0, a signed decimal integer parses,
anything else is NaN (none), and a comparison against NaN is false. -/
def jsStrNumber (s : String) : Option Int :=
  let t := jsTrim s
  if t = "" then some 0
  else
    let signAndRest : Int × List Char :=
      match t.data with
      | '-' :: r => (-1, r)
      | '+' :: r => (1, r)
      | r => (1, r)
    if signAndRest.2 ≠ [] ∧ signAndRest.2.all Char.isDigit then
      some (signAndRest.1 * (digitsToNat signAndRest.2 : Int))
    else none

/-- JS relational comparison (status >= k), which numerically coerces a
string operand. -/
def jsGe (v : JStatus) (k : Int) : Bool :=
  match v with
  | .num n => k ≤ n
  | .str s => ((jsStrNumber s).map (fun n => decide (k ≤ n))).getD false
  | .undef => false

/-- The data payload attached to an error: absent/null (falsy), the empty
array default of createErrorResponse (truthy in JS), or some other payload
identified by an abstract tag (truthy). -/
inductive JData where
  | undefv
  | emptyArr
  | payload (tag : Nat)
deriving DecidableEq, Repr

/-- JS truthiness of an error data payload (an array, even empty, is
truthy; only null/undefined is falsy here). -/
def JData.truthy : JData → Bool
  | .undefv => false
  | _ => true

/-- Truthiness of an optional string field (undefined and the empty string
are falsy). -/
def optTruthy (s : Option String) : Bool :=
  match s with
  | some t => t != ""
  | none => false

/-- error.message?.includes(pat): false when the message is absent. -/
def optIncludes (m : Option String) (pat : String) : Bool :=
  match m with
  | some s => jsIncludes s pat
  | none => false

/-- A JS error value as inspected by utils/apiHelpers.js and
services/apiWrapper.js: the dynamic fields the code reads, with absent
fields modelled by the falsy defaults.  The JS field named type is
rendered as etype because the remaining fields keep their source names. -/
structure ErrObj where
  status : JStatus := .undef
  etype : Option String := none
  message : Option String := none
  isNetworkError : Bool := false
  statusCode : JStatus := .undef
  data : JData := .undefv
  timestamp : Option String := none
  retryAfter : Option Int := none
deriving DecidableEq, Repr

/-- A plain new Error(msg): only the message field is set. -/
def plainError (msg : String) : ErrObj := { message := some msg }

/-- The values of the ERROR_TYPES constant of utils/apiHelpers.js. -/
def ERROR_TYPES : List String :=
  ["network", "validation", "not_found", "server_error", "rate_limit", "timeout", "unknown"]

/-- createErrorResponse(message, type, data, status) of utils/apiHelpers.js.
The timestamp argument stands for new Date().toISOString() at the moment
of the call. -/
def createErrorResponse (message : String) (etype : String) (data : JData)
    (status : JStatus) (now : String) : ErrObj :=
  { status := .str "error"
    message := some (if message = "" then "Terjadi kesalahan yang tidak diketahui" else message)
    etype := some etype
    data := if data.truthy then data else .emptyArr
    statusCode := status
    isNetworkError := false
    timestamp := some now
    retryAfter := none }

/-- classifyErrorType(error) of utils/apiHelpers.js.  The early returns of
the source are flattened into nested conditionals: the status-code block
only returns in its four cases and otherwise falls through to the
message-phrase checks. -/
def classifyErrorType : Option ErrObj → String
  | none => "unknown"
  | some e =>
    if e.isNetworkError then
      if optIncludes e.message "timeout" || optIncludes e.message "habis" then "timeout"
      else "network"
    else if e.status.truthy && jsEqNum e.status 404 then "not_found"
    else if e.status.truthy && jsEqNum e.status 429 then "rate_limit"
    else if e.status.truthy && jsGe e.status 500 then "server_error"
    else if e.status.truthy && jsEqNum e.status 400 then "validation"
    else if optIncludes e.message "must be" || optIncludes e.message "required" then "validation"
    else
      let message := jsToLower ((e.message).getD "")
      if jsIncludes message "page is required" || jsIncludes message "keyword" ||
          jsIncludes message "endpoint" then "validation"
      else if jsIncludes message "not found" || jsIncludes message "tidak ditemukan" then "not_found"
      else if jsIncludes message "comic not found" then "not_found"
      else "unknown"

/-- Rendering of a status value inside the template literal of the default
branch of extractErrorMessage. -/
def statusText : JStatus → String
  | .undef => "null"
  | .num n => toString n
  | .str s => s

/-- extractErrorMessage(error) of utils/apiHelpers.js: prefer the message
on the error, else a status-keyed template (a strict-equality switch), else
the generic fallback. -/
def extractErrorMessage : Option ErrObj → String
  | none => "Terjadi kesalahan yang tidak diketahui"
  | some e =>
    if optTruthy e.message then (e.message).getD ""
    else if e.status.truthy then
      if jsEqNum e.status 400 then "Permintaan tidak valid. Silakan periksa parameter yang dikirim."
      else if jsEqNum e.status 404 then "Data tidak ditemukan."
      else if jsEqNum e.status 429 then "Terlalu banyak permintaan. Silakan tunggu sebentar."
      else if jsEqNum e.status 500 then "Kesalahan server. Silakan coba lagi nanti."
      else if jsEqNum e.status 503 then "Layanan sedang tidak tersedia. Silakan coba lagi nanti."
      else "Kesalahan server (" ++ statusText e.status ++ "). Silakan coba lagi."
    else "Terjadi kesalahan yang tidak diketahui. Silakan coba lagi."

/-- The standardized-format test at the top of normalizeError:
error.status === 'error' with truthy type and message fields. -/
def isStandardized (e : ErrObj) : Bool :=
  e.status == .str "error" && optTruthy e.etype && optTruthy e.message

/-- normalizeError(error) of utils/apiHelpers.js.  The now argument stands
for the timestamp produced inside createErrorResponse.  none models a
falsy input (null or undefined). -/
def normalizeError (now : String) : Option ErrObj → ErrObj
  | none => createErrorResponse "Terjadi kesalahan yang tidak diketahui" "unknown" .undefv .undef now
  | some e =>
    if isStandardized e then e
    else
      createErrorResponse (extractErrorMessage (some e)) (classifyErrorType (some e))
        (if e.data.truthy then e.data else .undefv)
        (if e.status.truthy then e.status
         else if e.statusCode.truthy then e.statusCode else .undef)
        now

example : classifyErrorType (some { isNetworkError := true }) = "network" := by decide
example : classifyErrorType (some { status := .num 404 }) = "not_found" := by decide
example : classifyErrorType (some { message := some "Keyword is required" }) = "validation" := by decide
example : classifyErrorType (some { status := .num 502, message := some "not found" }) = "server_error" := by decide
example : isStandardized (normalizeError "T" (some (plainError "boom"))) = true := by decide

/-- Lookup in a JS Map modelled as an association list in insertion
order (Map keys are unique, so the first match is the entry). -/
def mapLookup {α : Type} : List (String × α) → String → Option α
  | [], _ => none
  | p :: rest, k => if p.1 = k then some p.2 else mapLookup rest k

/-- JS Map.set: update the key's entry in place when it exists (keeping
its insertion position), otherwise append at the end. -/
def mapSet {α : Type} : List (String × α) → String → α → List (String × α)
  | [], k, v => [(k, v)]
  | p :: rest, k, v => if p.1 = k then (k, v) :: rest else p :: mapSet rest k v

/-- JS Map.delete: remove the key's entry when it exists. -/
def mapErase {α : Type} : List (String × α) → String → List (String × α)
  | [], _ => []
  | p :: rest, k => if p.1 = k then rest else p :: mapErase rest k

/-- getRetryDelay(attempt, baseDelay) of services/apiWrapper.js:
exponential backoff. -/
def getRetryDelay (attempt : Nat) (baseDelay : Nat) : Nat := baseDelay * 2 ^ attempt

/-- isRetryableError(error) of services/apiWrapper.js: the kind (the type
field when truthy, else classifyErrorType) decides first; the status-code
fallback and the legacy isNetworkError check only apply when the kind
matched none of the six known kinds. -/
def isRetryableError (e : ErrObj) : Bool :=
  let errorType := if optTruthy e.etype then (e.etype).getD "" else classifyErrorType (some e)
  let statusCode := if e.statusCode.truthy then e.statusCode else e.status
  if errorType = "validation" || errorType = "not_found" then false
  else if errorType = "network" || errorType = "timeout" || errorType = "server_error" then true
  else if errorType = "rate_limit" then true
  else if statusCode.truthy then jsGe statusCode 500 || jsEqNum statusCode 429
  else e.isNetworkError

/-- Terminal outcome of one run of the retry loop: a validated response
(abstracted by an identifier), a thrown error, or the thrown
Request-cancelled exception. -/
inductive RunOutcome where
  | ok (r : Nat)
  | err (e : ErrObj)
  | cancelled
deriving DecidableEq, Repr

/-- Observable trace of executeWithRetry: final outcome, number of network
attempts actually issued, and the backoff delays slept between them. -/
structure RetryTrace where
  outcome : RunOutcome
  attempts : Nat
  delays : List Nat
deriving DecidableEq, Repr

/-- Body of the for-loop of executeWithRetry(config, maxRetries,
baseDelay, signal).  outcomes gives the result of the network attempt at
each index (axios call followed by validateResponse, errors already
normalized by the interceptor or the validation wrapper); aborted models
signal?.aborted at the top of each iteration.  fuel counts the loop
iterations still permitted (the loop runs for attempt = 0..maxRetries);
the fuel-0 case is the trailing throw lastError after the loop, which is
unreachable when fuel starts at maxRetries + 1. -/
def retryGo (outcomes : Nat → Except ErrObj Nat) (aborted : Nat → Bool)
    (maxRetries baseDelay : Nat) (lastError : ErrObj) : Nat → Nat → RetryTrace
  | _, 0 => ⟨.err lastError, 0, []⟩
  | attempt, fuel + 1 =>
    if aborted attempt then ⟨.cancelled, 0, []⟩
    else
      match outcomes attempt with
      | .ok r => ⟨.ok r, 1, []⟩
      | .error e =>
        if attempt = maxRetries || !isRetryableError e then ⟨.err e, 1, []⟩
        else
          let d := getRetryDelay attempt baseDelay
          let rest := retryGo outcomes aborted maxRetries baseDelay e (attempt + 1) fuel
          ⟨rest.outcome, rest.attempts + 1, d :: rest.delays⟩

/-- executeWithRetry of services/apiWrapper.js as a trace function.  The
initial lastError models the undefined let-binding, never thrown. -/
def executeWithRetry (outcomes : Nat → Except ErrObj Nat) (aborted : Nat → Bool)
    (maxRetries baseDelay : Nat) : RetryTrace :=
  retryGo outcomes aborted maxRetries baseDelay {} 0 (maxRetries + 1)

example :
    executeWithRetry (fun i => if i = 0 then .error { etype := some "server_error" } else .ok 7)
      (fun _ => false) 3 100 = ⟨.ok 7, 2, [100]⟩ := by decide
example :
    executeWithRetry (fun _ => .error { etype := some "validation" }) (fun _ => false) 3 100
      = ⟨.err { etype := some "validation" }, 1, []⟩ := by decide
example :
    executeWithRetry (fun _ => .error { etype := some "server_error" }) (fun _ => false) 2 100
      = ⟨.err { etype := some "server_error" }, 3, [100, 200]⟩ := by decide
/-- A normalized error whose kind is unknown but whose statusCode is 500:
the status-code fallback of isRetryableError retries it. -/
def unknown500 : ErrObj :=
  { status := .str "error", etype := some "unknown", message := some "boom",
    statusCode := .num 500 }

example :
    executeWithRetry (fun _ => .error unknown500) (fun _ => false) 1 50
      = ⟨.err unknown500, 2, [50]⟩ := by decide

/-- One entry of the limits table of utils/rateLimiter.js. -/
structure LimitConfig where
  maxRequests : Nat
  windowMs : Nat
deriving DecidableEq, Repr

/-- Result object of canMakeRequest. -/
structure RLCheck where
  allowed : Bool
  remaining : Int
  resetAt : Option Int
  limit : Nat
  windowMs : Nat
deriving DecidableEq, Repr

/-- RateLimiter state (utils/rateLimiter.js).  The JS limits object holds
the pattern entries and a default entry; its iteration order is insertion
order and getLimitConfig skips the default key, so the object is split
into the ordered pattern list and the default config.  requestHistory is
the Map from endpoint string to its timestamp list. -/
structure RateLimiter where
  limits : List (String × LimitConfig)
  defaultLimit : LimitConfig
  requestHistory : List (String × List Int) := []
deriving DecidableEq, Repr

/-- getLimitConfig(endpoint): first pattern (in insertion order) that the
endpoint includes as a substring wins, else the default config. -/
def RateLimiter.getLimitConfig (rl : RateLimiter) (endpoint : String) : LimitConfig :=
  match rl.limits.find? (fun pc => jsIncludes endpoint pc.1) with
  | some pc => pc.2
  | none => rl.defaultLimit

/-- canMakeRequest(endpoint) at time now: prune timestamps at or before
now - windowMs, store the pruned list back, and compare the remaining
count with maxRequests.  On denial resetAt is the oldest remaining
timestamp plus windowMs (none models the NaN produced when the pruned
list is empty, possible only with maxRequests = 0). -/
def RateLimiter.canMakeRequest (rl : RateLimiter) (endpoint : String) (now : Int) :
    RLCheck × RateLimiter :=
  let config := rl.getLimitConfig endpoint
  -- the source first inserts an empty list for an absent endpoint, then reads it
  let history := (mapLookup rl.requestHistory endpoint).getD []
  let windowStart := now - (config.windowMs : Int)
  let recentRequests := history.filter (fun timestamp => decide (windowStart < timestamp))
  let rl' := { rl with requestHistory := mapSet rl.requestHistory endpoint recentRequests }
  let remaining : Int := (config.maxRequests : Int) - recentRequests.length
  let allowed := decide (0 < remaining)
  let resetAt := if allowed then none
                 else recentRequests.head?.map (fun t => t + (config.windowMs : Int))
  ({ allowed := allowed, remaining := max 0 remaining, resetAt := resetAt,
     limit := config.maxRequests, windowMs := config.windowMs }, rl')

/-- recordRequest(endpoint) at time now: append the timestamp to the
endpoint's history list. -/
def RateLimiter.recordRequest (rl : RateLimiter) (endpoint : String) (now : Int) : RateLimiter :=
  let history := (mapLookup rl.requestHistory endpoint).getD []
  { rl with requestHistory := mapSet rl.requestHistory endpoint (history ++ [now]) }

/-- getDelay(endpoint): wait time until the window admits a request again
(resetAt is checked for truthiness, so a 0 or NaN resetAt yields 0). -/
def RateLimiter.getDelay (rl : RateLimiter) (endpoint : String) (now : Int) : Int :=
  let result := (rl.canMakeRequest endpoint now).1
  if result.allowed then 0
  else
    match result.resetAt with
    | some r => if r = 0 then 0 else max 0 (r - now)
    | none => 0

/-- The singleton limiter constructed at the bottom of
utils/rateLimiter.js. -/
def rateLimiterSingleton : RateLimiter :=
  { limits := [("/terbaru", ⟨5, 60000⟩), ("/popular", ⟨3, 60000⟩), ("/recommended", ⟨3, 60000⟩),
               ("/search", ⟨10, 60000⟩), ("/detail", ⟨20, 60000⟩), ("/read", ⟨15, 60000⟩)]
    defaultLimit := ⟨10, 60000⟩
    requestHistory := [] }

example :
    ((rateLimiterSingleton.recordRequest "/detail/a" 0).canMakeRequest "/detail/b" 500).1.remaining
      = 20 := by decide
example :
    ((rateLimiterSingleton.recordRequest "/detail/a" 0).canMakeRequest "/detail/a" 500).1.remaining
      = 19 := by decide

/-- One memory-cache entry of services/cacheManager.js.  The cached value
is abstracted to Option Nat whose none is the JS null (JSON payload
identity under the stringify/parse round trip is assumed). -/
structure CMEntry where
  data : Option Nat
  expiresAt : Option Int
  cachedAt : Int
deriving DecidableEq, Repr

/-- CacheManager state (services/cacheManager.js).  The localStorage pairs
under storagePrefix and storageTimePrefix are modelled by two maps keyed
by the cache key (the constant prefixes only namespace the store).  The
typeof window check and the storage quota failure are environment
conditions folded into useLocalStorage and not modelled. -/
structure CacheManager where
  memoryCache : List (String × CMEntry) := []
  storageData : List (String × Option Nat) := []
  storageTime : List (String × Int) := []
  useLocalStorage : Bool := true
  defaultTTL : Nat := 1800000
  maxCacheSize : Nat := 50
deriving DecidableEq, Repr

/-- Truthiness of the expiresAt field (null and 0 are falsy). -/
def expTruthy : Option Int → Bool
  | some v => v != 0
  | none => false

/-- getFromMemory(key) at time now: a missing entry is null; an entry with
a truthy expiresAt in the past is deleted and null; otherwise its data. -/
def CacheManager.getFromMemory (cm : CacheManager) (key : String) (now : Int) :
    Option Nat × CacheManager :=
  match mapLookup cm.memoryCache key with
  | none => (none, cm)
  | some entry =>
    if expTruthy entry.expiresAt ∧ entry.expiresAt.getD 0 < now then
      (none, { cm with memoryCache := mapErase cm.memoryCache key })
    else (entry.data, cm)

/-- removeFromLocalStorage(key): drop both the data and the time entry. -/
def CacheManager.removeFromLocalStorage (cm : CacheManager) (key : String) : CacheManager :=
  if !cm.useLocalStorage then cm
  else { cm with storageData := mapErase cm.storageData key,
                 storageTime := mapErase cm.storageTime key }

/-- getFromLocalStorage(key) at time now: need both the data and the time
entry; past expiry removes both and yields null, else the parsed data. -/
def CacheManager.getFromLocalStorage (cm : CacheManager) (key : String) (now : Int) :
    Option Nat × CacheManager :=
  if !cm.useLocalStorage then (none, cm)
  else
    match mapLookup cm.storageData key, mapLookup cm.storageTime key with
    | some cachedData, some cachedTime =>
      if cachedTime < now then (none, cm.removeFromLocalStorage key)
      else (cachedData, cm)
    | _, _ => (none, cm)

/-- setToMemory(key, data, ttl) at time now: a falsy ttl stores a
never-expiring entry; at capacity the first key of the Map is evicted
before the insert (on an empty map the eviction deletes the undefined
key, a no-op). -/
def CacheManager.setToMemory (cm : CacheManager) (key : String) (data : Option Nat)
    (ttl : Nat) (now : Int) : CacheManager :=
  let expiresAt : Option Int := if ttl ≠ 0 then some (now + ttl) else none
  let afterEvict :=
    if cm.maxCacheSize ≤ cm.memoryCache.length then
      match cm.memoryCache.head? with
      | some firstEntry => mapErase cm.memoryCache firstEntry.1
      | none => cm.memoryCache
    else cm.memoryCache
  { cm with memoryCache :=
      mapSet afterEvict key { data := data, expiresAt := expiresAt, cachedAt := now } }

/-- setToLocalStorage(key, data, ttl) at time now (quota-exceeded retry is
an environment failure not modelled; the write is advisory). -/
def CacheManager.setToLocalStorage (cm : CacheManager) (key : String) (data : Option Nat)
    (ttl : Nat) (now : Int) : CacheManager :=
  if !cm.useLocalStorage then cm
  else
    let expiresAt : Int := now + (if ttl ≠ 0 then ttl else cm.defaultTTL)
    { cm with storageData := mapSet cm.storageData key data,
              storageTime := mapSet cm.storageTime key expiresAt }

/-- set(key, data, ttl): write-through to both tiers with the same TTL
(a falsy ttl argument falls back to defaultTTL); generateKey is the
identity on string keys. -/
def CacheManager.set (cm : CacheManager) (key : String) (data : Option Nat)
    (ttl : Nat) (now : Int) : CacheManager :=
  let cacheTTL := if ttl ≠ 0 then ttl else cm.defaultTTL
  let cm1 := cm.setToMemory key data cacheTTL now
  cm1.setToLocalStorage key data cacheTTL now

/-- get(key) at time now: memory tier first; on miss the persistent tier,
whose hit is restored into memory with defaultTTL. -/
def CacheManager.get (cm : CacheManager) (key : String) (now : Int) :
    Option Nat × CacheManager :=
  let memoryStep := cm.getFromMemory key now
  match memoryStep.1 with
  | some v => (some v, memoryStep.2)
  | none =>
    let storageStep := memoryStep.2.getFromLocalStorage key now
    match storageStep.1 with
    | some v => (some v, storageStep.2.setToMemory key (some v) storageStep.2.defaultTTL now)
    | none => (none, storageStep.2)

example :
    ((({} : CacheManager).set "k" (some 5) 100 0).get "k" 90).1 = some 5 := by decide
example :
    ((({} : CacheManager).set "k" (some 5) 100 0).get "k" 150).1 = none := by decide
example :
    ((({ maxCacheSize := 2 } : CacheManager).set "a" (some 1) 100 0).set "b" (some 2) 100 0
      |>.set "c" (some 3) 100 0).memoryCache.map Prod.fst = ["b", "c"] := by decide

/-- Request descriptor fields used by getRequestKey (params and data stand
for their JSON.stringify serializations; absent fields serialize to the
empty string). -/
structure RequestConfig where
  method : String := "get"
  url : String := ""
  params : Option String := none
  data : Option String := none
deriving DecidableEq, Repr

/-- getRequestKey(config) of services/apiWrapper.js. -/
def getRequestKey (c : RequestConfig) : String :=
  c.method ++ ":" ++ c.url ++ ":" ++ c.params.getD "" ++ ":" ++ c.data.getD ""

/-- Ceiling division for the Math.ceil(delay / 1000) of the rate-limit
error message (delay is nonnegative). -/
def ceilDiv1000 (delay : Int) : Int := (delay + 999) / 1000

/-- The rate-limit error thrown by request on a denied check: normalized
from a message and status 429, then given type rate_limit and a
retryAfter hint. -/
def rateLimitError (delay : Int) (nowStr : String) : ErrObj :=
  let base := normalizeError nowStr (some
    { message := some ("Terlalu banyak permintaan. Silakan tunggu " ++
        toString (ceilDiv1000 delay) ++ " detik."), status := .num 429 })
  { base with etype := some "rate_limit", retryAfter := some delay }

/-- Mutable state of an APIWrapper instance for the request path: the
in-flight table (requestKey to the shared pending promise, abstracted by a
promise identifier), a fresh-promise counter, the count of physical
network calls started (executeWithRetry invocations), and the module-level
rate limiter singleton it consults. -/
structure WrapperState where
  pendingRequests : List (String × Nat) := []
  nextPromiseId : Nat := 0
  networkCalls : Nat := 0
  limiter : RateLimiter := rateLimiterSingleton
deriving DecidableEq, Repr

/-- What a call to request returns to its caller: the promise already in
flight for the same key, a newly started promise, or the synchronously
thrown rate-limit error. -/
inductive ReqResult where
  | pendingHit (promiseId : Nat)
  | started (promiseId : Nat)
  | rateLimited (e : ErrObj)
deriving DecidableEq, Repr

/-- request(config, options) of services/apiWrapper.js up to the creation
of the executeWithRetry promise: the deduplication gate, the rate-limit
gate (getDelay re-checks the limiter for the wait hint), the recording of
an admitted request, and the insertion of the new promise into the
in-flight table.  now is Date.now() during this synchronous section. -/
def APIWrapper.request (st : WrapperState) (config : RequestConfig)
    (enableDeduplication enableRateLimit : Bool) (now : Int) (nowStr : String) :
    ReqResult × WrapperState :=
  let requestKey := getRequestKey config
  match (if enableDeduplication then mapLookup st.pendingRequests requestKey else none) with
  | some pid => (.pendingHit pid, st)
  | none =>
    let gate :=
      if enableRateLimit && config.url != "" then
        let check := st.limiter.canMakeRequest config.url now
        if !check.1.allowed then
          let delay := (check.2).getDelay config.url now
          (some (rateLimitError delay nowStr), { st with limiter := check.2 })
        else
          (none, { st with limiter := (check.2).recordRequest config.url now })
      else (none, st)
    match gate.1 with
    | some e => (.rateLimited e, gate.2)
    | none =>
      let pid := gate.2.nextPromiseId
      (.started pid,
        { gate.2 with
            nextPromiseId := pid + 1,
            networkCalls := gate.2.networkCalls + 1,
            pendingRequests :=
              if enableDeduplication then mapSet gate.2.pendingRequests requestKey pid
              else gate.2.pendingRequests })

/-- The finally handler attached to the stored promise: remove the
in-flight entry when the call settles.  The success flag records whether
the promise fulfilled or rejected; finally runs the same cleanup either
way, which is why the result does not depend on it. -/
def APIWrapper.settle (st : WrapperState) (requestKey : String) (_success : Bool) : WrapperState :=
  { st with pendingRequests := mapErase st.pendingRequests requestKey }

/-- n further calls to request with the same descriptor and options, in
program order (the event loop interleaves whole synchronous sections). -/
def APIWrapper.requestN (config : RequestConfig) (enableDeduplication enableRateLimit : Bool)
    (now : Int) (nowStr : String) : Nat → WrapperState → List ReqResult × WrapperState
  | 0, st => ([], st)
  | n + 1, st =>
    let step := APIWrapper.request st config enableDeduplication enableRateLimit now nowStr
    let rest := APIWrapper.requestN config enableDeduplication enableRateLimit now nowStr n step.2
    (step.1 :: rest.1, rest.2)

deriving instance DecidableEq for Except

/-- A JS argument value as passed to the facade validators: an integral
number, the float NaN, a string, or null/undefined. -/
inductive JsParam where
  | num (n : Int)
  | nanv
  | str (s : String)
  | nullv
deriving DecidableEq, Repr

/-- validatePage of src/src/utils/apiHelpers.js (the variant used by
services/api.js, without an upper bound): numbers pass through, other
values go through parseInt (null stringifies to a non-numeric word), and
NaN or a value below 1 throws. -/
def validatePage : JsParam → Except ErrObj Int
  | .num n => if n < 1 then .error (plainError "Page must be a positive integer") else .ok n
  | .nanv => .error (plainError "Page must be a positive integer")
  | .str s =>
    match jsParseInt s with
    | none => .error (plainError "Page must be a positive integer")
    | some n => if n < 1 then .error (plainError "Page must be a positive integer") else .ok n
  | .nullv => .error (plainError "Page must be a positive integer")

/-- validatePage of the utils/apiHelpers.js variant embedded at
src/unnamed/part_018, which additionally enforces MAX_PAGE = 1000. -/
def validatePageMax : JsParam → Except ErrObj Int
  | p =>
    match validatePage p with
    | .error e => .error e
    | .ok n =>
      if 1000 < n then .error (plainError "Page must be less than or equal to 1000")
      else .ok n

/-- validateEndpoint of utils/apiHelpers.js: a falsy or non-string value
throws, an all-whitespace string throws, else the trimmed endpoint. -/
def validateEndpoint : JsParam → Except ErrObj String
  | .str s =>
    if s = "" then .error (plainError "Endpoint must be a non-empty string")
    else if (jsTrim s).length = 0 then .error (plainError "Endpoint cannot be empty")
    else .ok (jsTrim s)
  | _ => .error (plainError "Endpoint must be a non-empty string")

/-- validateKeyword of utils/apiHelpers.js: falsy or non-string throws,
all-whitespace throws, a trimmed length below 2 throws, else the trimmed
keyword. -/
def validateKeyword : JsParam → Except ErrObj String
  | .str s =>
    if s = "" then .error (plainError "Keyword must be a non-empty string")
    else
      let trimmed := jsTrim s
      if trimmed.length = 0 then .error (plainError "Keyword cannot be empty")
      else if trimmed.length < 2 then .error (plainError "Keyword must be at least 2 characters")
      else .ok trimmed
  | _ => .error (plainError "Keyword must be a non-empty string")

/-- What a facade method of services/api.js does, observed at its
boundary: throw synchronously, return a rejected promise, or delegate a
GET with the given path and serialized query parameters to the wrapper. -/
inductive FacadeResult where
  | thrown (e : ErrObj)
  | rejected (e : ErrObj)
  | requested (url : String) (params : Option String)
deriving DecidableEq, Repr

/-- The try/catch wrapping each validating facade method: a thrown
validation error becomes Promise.reject(error). -/
def jsTryCatchReject : Except ErrObj FacadeResult → FacadeResult
  | .ok r => r
  | .error e => .rejected e

/-- komikcastAPI.getTerbaru(page): validate, then GET /terbaru with the
validated page as query parameter. -/
def komikcastAPI.getTerbaru (page : JsParam) : FacadeResult :=
  jsTryCatchReject (do
    let validatedPage ← validatePage page
    pure (.requested "/terbaru" (some ("page=" ++ toString validatedPage))))

/-- komikcastAPI.getDetail(endpoint): validate, then GET /detail/ with the
validated endpoint appended. -/
def komikcastAPI.getDetail (endpoint : JsParam) : FacadeResult :=
  jsTryCatchReject (do
    let validatedEndpoint ← validateEndpoint endpoint
    pure (.requested ("/detail/" ++ validatedEndpoint) none))

/-- komikcastAPI.search(keyword): validate, then GET /search with the
validated keyword as query parameter. -/
def komikcastAPI.search (keyword : JsParam) : FacadeResult :=
  jsTryCatchReject (do
    let validatedKeyword ← validateKeyword keyword
    pure (.requested "/search" (some ("keyword=" ++ validatedKeyword))))

example : komikcastAPI.getTerbaru (.num 0)
    = .rejected (plainError "Page must be a positive integer") := by decide
example : komikcastAPI.getTerbaru (.str "2") = .requested "/terbaru" (some "page=2") := by decide
example : komikcastAPI.search (.str " a ")
    = .rejected (plainError "Keyword must be at least 2 characters") := by decide
example : komikcastAPI.getDetail (.str " solo-leveling ")
    = .requested "/detail/solo-leveling" none := by decide

theorem mapLookup_eq_none_of_not_mem {α : Type} (m : List (String × α)) (k : String)
    (h : k ∉ m.map Prod.fst) : mapLookup m k = none := by
  induction m with
  | nil => rfl
  | cons p rest ih =>
    simp only [List.map_cons, List.mem_cons] at h
    push_neg at h
    simp only [mapLookup]
    rw [if_neg (fun he => h.1 he.symm)]
    exact ih h.2

theorem mapLookup_mapSet_self {α : Type} (m : List (String × α)) (k : String) (v : α) :
    mapLookup (mapSet m k v) k = some v := by
  induction m with
  | nil => simp [mapSet, mapLookup]
  | cons p rest ih =>
    by_cases hp : p.1 = k
    · simp [mapSet, hp, mapLookup]
    · simp [mapSet, hp, mapLookup, ih]

theorem mapLookup_mapSet_other {α : Type} (m : List (String × α)) (k k' : String) (v : α)
    (h : k' ≠ k) : mapLookup (mapSet m k v) k' = mapLookup m k' := by
  induction m with
  | nil =>
    simp only [mapSet, mapLookup]
    rw [if_neg (fun he => h he.symm)]
  | cons p rest ih =>
    by_cases hp : p.1 = k
    · simp only [mapSet, if_pos hp, mapLookup]
      rw [if_neg (fun he => h he.symm), if_neg (fun he => h (hp.symm.trans he).symm)]
    · simp only [mapSet, if_neg hp, mapLookup]
      by_cases hq : p.1 = k'
      · rw [if_pos hq, if_pos hq]
      · rw [if_neg hq, if_neg hq, ih]

theorem mem_keys_mapSet {α : Type} (m : List (String × α)) (k k' : String) (v : α)
    (h : k' ∈ (mapSet m k v).map Prod.fst) : k' = k ∨ k' ∈ m.map Prod.fst := by
  induction m with
  | nil => simpa [mapSet] using h
  | cons p rest ih =>
    by_cases hp : p.1 = k
    · simp only [mapSet, if_pos hp, List.map_cons, List.mem_cons] at h
      rcases h with h | h
      · exact Or.inl h
      · exact Or.inr (by simp [h])
    · simp only [mapSet, if_neg hp, List.map_cons, List.mem_cons] at h
      rcases h with h | h
      · exact Or.inr (by simp [h])
      · rcases ih h with h' | h'
        · exact Or.inl h'
        · exact Or.inr (by simp [h'])

theorem mem_keys_mapErase {α : Type} (m : List (String × α)) (k k' : String)
    (h : k' ∈ (mapErase m k).map Prod.fst) : k' ∈ m.map Prod.fst := by
  induction m with
  | nil => exact h
  | cons p rest ih =>
    by_cases hp : p.1 = k
    · simp only [mapErase, if_pos hp] at h
      simp [List.mem_cons, h]
    · simp only [mapErase, if_neg hp, List.map_cons, List.mem_cons] at h
      rcases h with h | h
      · simp [h]
      · simp [ih h]

theorem nodup_keys_mapSet {α : Type} (m : List (String × α)) (k : String) (v : α)
    (h : (m.map Prod.fst).Nodup) : ((mapSet m k v).map Prod.fst).Nodup := by
  induction m with
  | nil => simp [mapSet]
  | cons p rest ih =>
    simp only [List.map_cons, List.nodup_cons] at h
    by_cases hp : p.1 = k
    · simp only [mapSet, if_pos hp, List.map_cons, List.nodup_cons]
      exact ⟨hp ▸ h.1, h.2⟩
    · simp only [mapSet, if_neg hp, List.map_cons, List.nodup_cons]
      refine ⟨fun hmem => ?_, ih h.2⟩
      rcases mem_keys_mapSet rest k p.1 v hmem with h' | h'
      · exact hp h'
      · exact h.1 h'

theorem nodup_keys_mapErase {α : Type} (m : List (String × α)) (k : String)
    (h : (m.map Prod.fst).Nodup) : ((mapErase m k).map Prod.fst).Nodup := by
  induction m with
  | nil => simp [mapErase]
  | cons p rest ih =>
    simp only [List.map_cons, List.nodup_cons] at h
    by_cases hp : p.1 = k
    · simp only [mapErase, if_pos hp]
      exact h.2
    · simp only [mapErase, if_neg hp, List.map_cons, List.nodup_cons]
      exact ⟨fun hmem => h.1 (mem_keys_mapErase rest k p.1 hmem), ih h.2⟩

theorem mapLookup_mapErase_self {α : Type} (m : List (String × α)) (k : String)
    (h : (m.map Prod.fst).Nodup) : mapLookup (mapErase m k) k = none := by
  induction m with
  | nil => rfl
  | cons p rest ih =>
    simp only [List.map_cons, List.nodup_cons] at h
    by_cases hp : p.1 = k
    · simp only [mapErase, if_pos hp]
      exact mapLookup_eq_none_of_not_mem rest k (hp ▸ h.1)
    · simp only [mapErase, if_neg hp, mapLookup, if_neg hp]
      exact ih h.2

theorem mapLookup_mapErase_other {α : Type} (m : List (String × α)) (k k' : String)
    (h : k' ≠ k) : mapLookup (mapErase m k) k' = mapLookup m k' := by
  induction m with
  | nil => rfl
  | cons p rest ih =>
    by_cases hp : p.1 = k
    · simp only [mapErase, if_pos hp, mapLookup]
      rw [if_neg (fun he => h (hp.symm.trans he).symm)]
    · simp only [mapErase, if_neg hp, mapLookup]
      by_cases hq : p.1 = k'
      · rw [if_pos hq, if_pos hq]
      · rw [if_neg hq, if_neg hq, ih]

theorem length_mapErase_of_mem {α : Type} (m : List (String × α)) (k : String)
    (h : k ∈ m.map Prod.fst) : (mapErase m k).length + 1 = m.length := by
  induction m with
  | nil => simp at h
  | cons p rest ih =>
    by_cases hp : p.1 = k
    · simp [mapErase, hp]
    · simp only [List.map_cons, List.mem_cons] at h
      rcases h with h | h
      · exact absurd h.symm hp
      · simp only [mapErase, if_neg hp, List.length_cons, ih h]

theorem length_mapSet_le {α : Type} (m : List (String × α)) (k : String) (v : α) :
    (mapSet m k v).length ≤ m.length + 1 := by
  induction m with
  | nil => simp [mapSet]
  | cons p rest ih =>
    by_cases hp : p.1 = k
    · simp [mapSet, hp]
    · simp only [mapSet, if_neg hp, List.length_cons]
      omega

theorem classifyErrorType_mem_ERROR_TYPES (x : Option ErrObj) :
    classifyErrorType x ∈ ERROR_TYPES := by
  cases x with
  | none => simp [classifyErrorType, ERROR_TYPES]
  | some e =>
    simp only [classifyErrorType, ERROR_TYPES]
    split_ifs <;> simp

theorem mem_ERROR_TYPES_ne_empty (t : String) (h : t ∈ ERROR_TYPES) : t ≠ "" := by
  simp only [ERROR_TYPES, List.mem_cons, List.not_mem_nil, or_false] at h
  rcases h with h | h | h | h | h | h | h <;> subst h <;> decide

theorem isStandardized_createErrorResponse (m t : String) (d : JData) (s : JStatus)
    (now : String) (ht : t ≠ "") :
    isStandardized (createErrorResponse m t d s now) = true := by
  simp only [isStandardized, createErrorResponse, Bool.and_eq_true]
  refine ⟨⟨by simp, by simp [optTruthy, ht]⟩, ?_⟩
  simp only [optTruthy]
  split_ifs with hm
  · decide
  · simpa using hm

theorem isStandardized_normalizeError (now : String) (e : Option ErrObj) :
    isStandardized (normalizeError now e) = true := by
  cases e with
  | none =>
    simp only [normalizeError]
    exact isStandardized_createErrorResponse _ _ _ _ _ (by decide)
  | some o =>
    by_cases h : isStandardized o = true
    · simp [normalizeError, h]
    · simp only [normalizeError, h, if_false, Bool.false_eq_true]
      exact isStandardized_createErrorResponse _ _ _ _ _
        (mem_ERROR_TYPES_ne_empty _ (classifyErrorType_mem_ERROR_TYPES (some o)))

/-- C8: classification of a raw failure follows the priority order of the
spec: a transport-level failure with no response (isNetworkError) is
classified timeout when its message mentions a timeout (the English word
or the Indonesian timeout phrase Waktu permintaan habis) and network
otherwise; else, when a numeric HTTP status is present, 404 classifies as
not_found, 429 as rate_limit, any status of at least 500 as server_error
and 400 as validation — each regardless of the message, so status-based
classification takes precedence over message-phrase matching. -/
theorem classifyErrorType_priority (e : ErrObj) (n : Int) :
    (e.isNetworkError = true →
      classifyErrorType (some e) =
        (if optIncludes e.message "timeout" || optIncludes e.message "habis" then "timeout"
         else "network"))
    ∧ (e.isNetworkError = false → e.status = .num 404 → classifyErrorType (some e) = "not_found")
    ∧ (e.isNetworkError = false → e.status = .num 429 → classifyErrorType (some e) = "rate_limit")
    ∧ (e.isNetworkError = false → e.status = .num n → 500 ≤ n →
        classifyErrorType (some e) = "server_error")
    ∧ (e.isNetworkError = false → e.status = .num 400 →
        classifyErrorType (some e) = "validation") := by
  refine ⟨fun h => ?_, fun h hs => ?_, fun h hs => ?_, fun h hs hn => ?_, fun h hs => ?_⟩
  · simp [classifyErrorType, h]
  · simp [classifyErrorType, h, hs, JStatus.truthy, jsEqNum]
  · simp [classifyErrorType, h, hs, JStatus.truthy, jsEqNum]
  · have h404 : n ≠ 404 := by omega
    have h429 : n ≠ 429 := by omega
    have h0 : n ≠ 0 := by omega
    simp [classifyErrorType, h, hs, JStatus.truthy, jsEqNum, jsGe, h404, h429, h0, hn]
  · simp [classifyErrorType, h, hs, JStatus.truthy, jsEqNum, jsGe]

/-- Witness for C8: a 503 response whose message would otherwise match the
not-found phrases still classifies as server_error. -/
theorem classifyErrorType_priority_witness :
    classifyErrorType (some { status := .num 503, message := some "comic not found" })
      = "server_error" :=
  (classifyErrorType_priority { status := .num 503, message := some "comic not found" }
    503).2.2.2.1 rfl rfl (by decide)

theorem normalizeError_of_isStandardized (now : String) (x : ErrObj)
    (h : isStandardized x = true) : normalizeError now (some x) = x := by
  simp [normalizeError, h]

/-- C9: normalizeError is idempotent — normalizing an already-normalized
error returns it unchanged, whatever timestamp the second normalization
would have used. -/
theorem normalizeError_idempotent (now now' : String) (e : Option ErrObj) :
    normalizeError now' (some (normalizeError now e)) = normalizeError now e :=
  normalizeError_of_isStandardized now' (normalizeError now e)
    (isStandardized_normalizeError now e)

/-- C10: normalizeError is total — on a non-standardized input the result
carries status error, a type drawn from the seven ERROR_TYPES values and a
truthy message, and normalizeError(null) yields the unknown kind with the
default human-readable message. -/
theorem normalizeError_total (now : String) (o : ErrObj) (h : isStandardized o = false) :
    (normalizeError now (some o)).status = .str "error"
    ∧ (∃ t, (normalizeError now (some o)).etype = some t ∧ t ∈ ERROR_TYPES)
    ∧ optTruthy (normalizeError now (some o)).message = true
    ∧ normalizeError now none =
        { status := .str "error", etype := some "unknown",
          message := some "Terjadi kesalahan yang tidak diketahui",
          isNetworkError := false, statusCode := .undef, data := .emptyArr,
          timestamp := some now, retryAfter := none } := by
  have hs := isStandardized_normalizeError now (some o)
  simp only [isStandardized, Bool.and_eq_true, beq_iff_eq] at hs
  refine ⟨hs.1.1, ?_, ?_, ?_⟩
  · refine ⟨classifyErrorType (some o), ?_, classifyErrorType_mem_ERROR_TYPES (some o)⟩
    simp [normalizeError, h, createErrorResponse]
  · exact hs.2
  · simp [normalizeError, createErrorResponse, JData.truthy]

/-- Witness for C10 at a concrete non-standardized error. -/
theorem normalizeError_total_witness :
    (normalizeError "T" (some (plainError "boom"))).status = .str "error"
    ∧ (∃ t, (normalizeError "T" (some (plainError "boom"))).etype = some t ∧ t ∈ ERROR_TYPES)
    ∧ optTruthy (normalizeError "T" (some (plainError "boom"))).message = true
    ∧ normalizeError "T" none =
        { status := .str "error", etype := some "unknown",
          message := some "Terjadi kesalahan yang tidak diketahui",
          isNetworkError := false, statusCode := .undef, data := .emptyArr,
          timestamp := some "T", retryAfter := none } :=
  normalizeError_total "T" (plainError "boom") (by decide)

theorem isRetryableError_nonretryable_kind (e : ErrObj)
    (h : e.etype = some "validation" ∨ e.etype = some "not_found") :
    isRetryableError e = false := by
  rcases h with h | h <;> simp [isRetryableError, h, optTruthy]

theorem isRetryableError_retryable_kind (e : ErrObj)
    (h : e.etype = some "network" ∨ e.etype = some "timeout" ∨ e.etype = some "server_error"
      ∨ e.etype = some "rate_limit") :
    isRetryableError e = true := by
  rcases h with h | h | h | h <;> simp [isRetryableError, h, optTruthy]

theorem retryGo_spec (outcomes : Nat → Except ErrObj Nat) (maxRetries baseDelay : Nat) :
    ∀ fuel attempt (lastError : ErrObj), attempt + fuel = maxRetries + 1 → 1 ≤ fuel →
      (1 ≤ (retryGo outcomes (fun _ => false) maxRetries baseDelay lastError attempt fuel).attempts
        ∧ (retryGo outcomes (fun _ => false) maxRetries baseDelay lastError attempt fuel).attempts
            ≤ fuel)
      ∧ (retryGo outcomes (fun _ => false) maxRetries baseDelay lastError attempt fuel).delays
          = (List.range
              ((retryGo outcomes (fun _ => false) maxRetries baseDelay lastError attempt
                  fuel).attempts - 1)).map
              (fun i => getRetryDelay (attempt + i) baseDelay)
      ∧ (∀ j, j + 1 <
            (retryGo outcomes (fun _ => false) maxRetries baseDelay lastError attempt
              fuel).attempts →
          attempt + j < maxRetries
          ∧ ∃ e, outcomes (attempt + j) = Except.error e ∧ isRetryableError e = true) := by
  intro fuel
  induction fuel with
  | zero => intro attempt lastError hsum h1; omega
  | succ f ih =>
    intro attempt lastError hsum _
    cases houtcome : outcomes attempt with
    | ok r =>
      have ht : retryGo outcomes (fun _ => false) maxRetries baseDelay lastError attempt (f + 1)
          = ⟨.ok r, 1, []⟩ := by
        simp [retryGo, houtcome]
      rw [ht]
      exact ⟨⟨le_refl 1, Nat.le_add_left 1 f⟩, by simp, fun j hj => by simp at hj⟩
    | error e =>
      by_cases hstop : (decide (attempt = maxRetries) || !isRetryableError e) = true
      · have ht : retryGo outcomes (fun _ => false) maxRetries baseDelay lastError attempt (f + 1)
            = ⟨.err e, 1, []⟩ := by
          simp only [retryGo, Bool.false_eq_true, if_false, houtcome]
          rw [if_pos hstop]
        rw [ht]
        exact ⟨⟨le_refl 1, Nat.le_add_left 1 f⟩, by simp, fun j hj => by simp at hj⟩
      · have hne : attempt ≠ maxRetries := by
          intro hh
          exact hstop (by simp [hh])
        have hretry : isRetryableError e = true := by
          cases hh : isRetryableError e with
          | true => rfl
          | false => exact absurd (by simp [hh]) hstop
        have hf1 : 1 ≤ f := by omega
        obtain ⟨⟨hge1, hlef⟩, hdel, hretr⟩ := ih (attempt + 1) e (by omega) hf1
        have ht : retryGo outcomes (fun _ => false) maxRetries baseDelay lastError attempt (f + 1)
            = ⟨(retryGo outcomes (fun _ => false) maxRetries baseDelay e (attempt + 1) f).outcome,
               (retryGo outcomes (fun _ => false) maxRetries baseDelay e (attempt + 1) f).attempts
                 + 1,
               getRetryDelay attempt baseDelay ::
                 (retryGo outcomes (fun _ => false) maxRetries baseDelay e (attempt + 1)
                   f).delays⟩ := by
          simp only [retryGo, Bool.false_eq_true, if_false, houtcome]
          rw [if_neg hstop]
        rw [ht]
        have hm : (retryGo outcomes (fun _ => false) maxRetries baseDelay e (attempt + 1)
            f).attempts
            = ((retryGo outcomes (fun _ => false) maxRetries baseDelay e (attempt + 1)
                f).attempts - 1) + 1 := by
          omega
        refine ⟨⟨?_, ?_⟩, ?_, ?_⟩
        · show 1 ≤ (retryGo outcomes (fun _ => false) maxRetries baseDelay e (attempt + 1)
            f).attempts + 1
          omega
        · show (retryGo outcomes (fun _ => false) maxRetries baseDelay e (attempt + 1)
            f).attempts + 1 ≤ f + 1
          omega
        · show getRetryDelay attempt baseDelay ::
              (retryGo outcomes (fun _ => false) maxRetries baseDelay e (attempt + 1) f).delays
            = (List.range
                ((retryGo outcomes (fun _ => false) maxRetries baseDelay e (attempt + 1)
                    f).attempts + 1 - 1)).map
                (fun i => getRetryDelay (attempt + i) baseDelay)
          rw [Nat.add_sub_cancel, hm, List.range_succ_eq_map, List.map_cons, List.map_map]
          refine congrArg₂ List.cons (by simp) ?_
          rw [hdel]
          apply List.map_congr_left
          intro i _
          simp only [Function.comp_apply]
          congr 1
          omega
        · intro j hj
          have hj' : j + 1 < (retryGo outcomes (fun _ => false) maxRetries baseDelay e
              (attempt + 1) f).attempts + 1 := hj
          cases j with
          | zero => exact ⟨by omega, e, houtcome, hretry⟩
          | succ j' =>
            have h2 := hretr j' (by omega)
            have hidx : attempt + 1 + j' = attempt + (j' + 1) := by omega
            rw [hidx] at h2
            exact h2

/-- C2 (amended): executeWithRetry issues at most retries + 1 attempts; a
further attempt after attempt j happens only when j is not the last index
and isRetryableError accepts the thrown error; the delay before retry
i + 1 is retryDelay * 2 ^ i; kinds validation and not_found are never
retried (an error of such a kind occurring on the first attempt is
rethrown with no second attempt) and kinds network, timeout, server_error
and rate_limit always are — but an error whose kind is none of the six
known kinds can also be retried through the status-code fallback of
isRetryableError. -/
theorem executeWithRetry_policy (outcomes : Nat → Except ErrObj Nat) (maxRetries baseDelay : Nat) :
    (1 ≤ (executeWithRetry outcomes (fun _ => false) maxRetries baseDelay).attempts
      ∧ (executeWithRetry outcomes (fun _ => false) maxRetries baseDelay).attempts
          ≤ maxRetries + 1)
    ∧ (executeWithRetry outcomes (fun _ => false) maxRetries baseDelay).delays
        = (List.range
            ((executeWithRetry outcomes (fun _ => false) maxRetries baseDelay).attempts - 1)).map
            (fun i => baseDelay * 2 ^ i)
    ∧ (∀ j, j + 1 < (executeWithRetry outcomes (fun _ => false) maxRetries baseDelay).attempts →
        j < maxRetries ∧ ∃ e, outcomes j = Except.error e ∧ isRetryableError e = true)
    ∧ (∀ e : ErrObj, e.etype = some "validation" ∨ e.etype = some "not_found" →
        isRetryableError e = false)
    ∧ (∀ e : ErrObj, e.etype = some "network" ∨ e.etype = some "timeout"
        ∨ e.etype = some "server_error" ∨ e.etype = some "rate_limit" →
        isRetryableError e = true)
    ∧ (∀ e, outcomes 0 = Except.error e →
        e.etype = some "validation" ∨ e.etype = some "not_found" →
        executeWithRetry outcomes (fun _ => false) maxRetries baseDelay = ⟨.err e, 1, []⟩) := by
  obtain ⟨hcount, hdel, hretr⟩ :=
    retryGo_spec outcomes maxRetries baseDelay (maxRetries + 1) 0 {} (by omega) (by omega)
  refine ⟨hcount, ?_, ?_, ?_, ?_, ?_⟩
  · show (retryGo outcomes (fun _ => false) maxRetries baseDelay {} 0 (maxRetries + 1)).delays
        = (List.range ((retryGo outcomes (fun _ => false) maxRetries baseDelay {} 0
            (maxRetries + 1)).attempts - 1)).map (fun i => baseDelay * 2 ^ i)
    rw [hdel]
    apply List.map_congr_left
    intro i _
    simp [getRetryDelay]
  · intro j hj
    have h2 := hretr j hj
    simpa using h2
  · exact isRetryableError_nonretryable_kind
  · exact isRetryableError_retryable_kind
  · intro e he hkind
    have hnr : isRetryableError e = false := isRetryableError_nonretryable_kind e hkind
    show retryGo outcomes (fun _ => false) maxRetries baseDelay {} 0 (maxRetries + 1)
        = ⟨.err e, 1, []⟩
    simp only [retryGo, Bool.false_eq_true, if_false, he]
    rw [if_pos (by simp [hnr])]

/-- Counterexample for C2 as stated: an error of kind unknown with
statusCode 500 is retried by executeWithRetry (two attempts are made)
although its kind is none of network, timeout, server_error, rate_limit. -/
theorem executeWithRetry_unknown_kind_retried :
    executeWithRetry (fun _ => Except.error unknown500) (fun _ => false) 1 50
      = ⟨.err unknown500, 2, [50]⟩
    ∧ unknown500.etype = some "unknown"
    ∧ unknown500.statusCode = .num 500
    ∧ isRetryableError unknown500 = true
    ∧ ¬(unknown500.etype = some "network" ∨ unknown500.etype = some "timeout"
        ∨ unknown500.etype = some "server_error" ∨ unknown500.etype = some "rate_limit") := by
  refine ⟨by decide, by decide, by decide, by decide, by decide⟩

/-- Concrete attempt sequence for the C2 witness: one retryable
server_error failure, then success. -/
def outcomesW : Nat → Except ErrObj Nat :=
  fun i => if i = 0 then Except.error { etype := some "server_error" } else Except.ok 7

/-- Witness for C2 at a concrete attempt sequence. -/
theorem executeWithRetry_policy_witness :
    (executeWithRetry outcomesW (fun _ => false) 3 100).attempts = 2
    ∧ (executeWithRetry outcomesW (fun _ => false) 3 100).delays = [100]
    ∧ (1 ≤ (executeWithRetry outcomesW (fun _ => false) 3 100).attempts
        ∧ (executeWithRetry outcomesW (fun _ => false) 3 100).attempts ≤ 4)
    ∧ isRetryableError { etype := some "validation" } = false
    ∧ executeWithRetry (fun _ => Except.error { etype := some "validation" }) (fun _ => false) 3 100
        = ⟨.err { etype := some "validation" }, 1, []⟩ :=
  ⟨by decide, by decide, (executeWithRetry_policy outcomesW 3 100).1,
    (executeWithRetry_policy outcomesW 3 100).2.2.2.1 { etype := some "validation" }
      (Or.inl rfl),
    (executeWithRetry_policy (fun _ => Except.error { etype := some "validation" }) 3 100).2.2.2.2.2
      { etype := some "validation" } rfl (Or.inl rfl)⟩

theorem head?_mem_of_eq_some {α : Type} (l : List α) (a : α) (h : l.head? = some a) : a ∈ l := by
  cases l with
  | nil => simp at h
  | cons x xs =>
    simp only [List.head?, Option.some_inj] at h
    rw [← h]
    exact List.mem_cons_self x xs

theorem request_gate_denied (st : WrapperState) (config : RequestConfig) (now : Int)
    (nowStr : String) (hurl : config.url ≠ "")
    (hdenied : (st.limiter.canMakeRequest config.url now).1.allowed = false) :
    APIWrapper.request st config false true now nowStr
      = (.rateLimited (rateLimitError
            (((st.limiter.canMakeRequest config.url now).2).getDelay config.url now) nowStr),
         { st with limiter := (st.limiter.canMakeRequest config.url now).2 }) := by
  simp [APIWrapper.request, hurl, hdenied]

theorem request_gate_allowed (st : WrapperState) (config : RequestConfig) (now : Int)
    (nowStr : String) (hurl : config.url ≠ "")
    (hallowed : (st.limiter.canMakeRequest config.url now).1.allowed = true) :
    APIWrapper.request st config false true now nowStr
      = (.started st.nextPromiseId,
         { st with
             limiter := ((st.limiter.canMakeRequest config.url now).2).recordRequest
               config.url now,
             nextPromiseId := st.nextPromiseId + 1,
             networkCalls := st.networkCalls + 1 }) := by
  simp [APIWrapper.request, hurl, hallowed]

/-- C5: canMakeRequest is a sliding-window counter — it prunes the checked
endpoint's recorded timestamps to those inside the window, stores the
pruned list back, admits exactly when the remaining count is strictly
below maxRequests, reports on denial resetAt = oldest remaining timestamp
plus windowMs (at most now + windowMs when all recorded timestamps are in
the past), and records no new timestamp on a denied check: the HTTP
wrapper's gate stores the bare pruned limiter state on denial and applies
recordRequest only after an admitted check. -/
theorem canMakeRequest_sliding_window (rl : RateLimiter) (endpoint : String) (now : Int) :
    ((rl.canMakeRequest endpoint now).1.allowed = true
      ↔ (((mapLookup rl.requestHistory endpoint).getD []).filter
          (fun t => decide (now - ((rl.getLimitConfig endpoint).windowMs : Int) < t))).length
          < (rl.getLimitConfig endpoint).maxRequests)
    ∧ mapLookup ((rl.canMakeRequest endpoint now).2).requestHistory endpoint
        = some (((mapLookup rl.requestHistory endpoint).getD []).filter
            (fun t => decide (now - ((rl.getLimitConfig endpoint).windowMs : Int) < t)))
    ∧ (∀ ep, ep ≠ endpoint →
        mapLookup ((rl.canMakeRequest endpoint now).2).requestHistory ep
          = mapLookup rl.requestHistory ep)
    ∧ ((rl.canMakeRequest endpoint now).1.allowed = false →
        (rl.canMakeRequest endpoint now).1.resetAt
          = (((mapLookup rl.requestHistory endpoint).getD []).filter
              (fun t => decide (now - ((rl.getLimitConfig endpoint).windowMs : Int) < t))).head?.map
              (fun t => t + ((rl.getLimitConfig endpoint).windowMs : Int)))
    ∧ ((∀ t ∈ (mapLookup rl.requestHistory endpoint).getD [], t ≤ now) →
        ∀ r, (rl.canMakeRequest endpoint now).1.resetAt = some r →
          r ≤ now + ((rl.getLimitConfig endpoint).windowMs : Int))
    ∧ mapLookup (rl.recordRequest endpoint now).requestHistory endpoint
        = some (((mapLookup rl.requestHistory endpoint).getD []) ++ [now])
    ∧ (∀ (st : WrapperState) (config : RequestConfig) (nowStr : String),
        st.limiter = rl → config.url = endpoint → config.url ≠ "" →
        (((rl.canMakeRequest endpoint now).1.allowed = false →
          (APIWrapper.request st config false true now nowStr).2.limiter
            = (rl.canMakeRequest endpoint now).2
          ∧ ∃ e, (APIWrapper.request st config false true now nowStr).1 = .rateLimited e)
        ∧ ((rl.canMakeRequest endpoint now).1.allowed = true →
          (APIWrapper.request st config false true now nowStr).2.limiter
            = ((rl.canMakeRequest endpoint now).2).recordRequest endpoint now))) := by
  refine ⟨?_, ?_, ?_, ?_, ?_, ?_, ?_⟩
  · simp [RateLimiter.canMakeRequest]
  · simp only [RateLimiter.canMakeRequest]
    exact mapLookup_mapSet_self _ _ _
  · intro ep hep
    simp only [RateLimiter.canMakeRequest]
    exact mapLookup_mapSet_other _ _ _ _ hep
  · intro hdenied
    simp only [RateLimiter.canMakeRequest] at hdenied ⊢
    simp only [decide_eq_false_iff_not] at hdenied
    exact if_neg (fun hcon => hdenied (by rwa [decide_eq_true_eq] at hcon))
  · intro hpast r hr
    simp only [RateLimiter.canMakeRequest] at hr
    by_cases hall : (0 : Int) <
        ((rl.getLimitConfig endpoint).maxRequests : Int)
          - (((mapLookup rl.requestHistory endpoint).getD []).filter
              (fun t => decide (now - ((rl.getLimitConfig endpoint).windowMs : Int) < t))).length
    · rw [if_pos (by simpa using hall)] at hr
      exact Option.noConfusion hr
    · rw [if_neg (by simpa using hall)] at hr
      cases hhead : (((mapLookup rl.requestHistory endpoint).getD []).filter
          (fun t => decide (now - ((rl.getLimitConfig endpoint).windowMs : Int) < t))).head? with
      | none =>
        rw [hhead] at hr
        exact Option.noConfusion hr
      | some t0 =>
        rw [hhead] at hr
        have hr' : t0 + ((rl.getLimitConfig endpoint).windowMs : Int) = r := Option.some.inj hr
        have ht0 : t0 ∈ (mapLookup rl.requestHistory endpoint).getD [] :=
          List.mem_of_mem_filter (head?_mem_of_eq_some _ _ hhead)
        have := hpast t0 ht0
        omega
  · simp only [RateLimiter.recordRequest]
    exact mapLookup_mapSet_self _ _ _
  · intro st config nowStr hlim hurl hurlne
    subst hlim
    subst hurl
    constructor
    · intro hdenied
      rw [request_gate_denied st config now nowStr hurlne hdenied]
      exact ⟨rfl, _, rfl⟩
    · intro hallowed
      rw [request_gate_allowed st config now nowStr hurlne hallowed]

/-- A small limiter with the spec's test numbers: one pattern with
maxRequests 3 in a 1000 ms window, three requests already recorded. -/
def rlW : RateLimiter :=
  { limits := [("/x", ⟨3, 1000⟩)], defaultLimit := ⟨10, 60000⟩,
    requestHistory := [("/x/1", [100, 200, 300])] }

/-- Witness for C5: with maxRequests 3 and windowMs 1000, a fourth check
inside the window is denied and its resetAt is at most now + 1000. -/
theorem canMakeRequest_sliding_window_witness :
    (rlW.canMakeRequest "/x/1" 500).1.allowed = false
    ∧ (∀ r, (rlW.canMakeRequest "/x/1" 500).1.resetAt = some r
        → r ≤ 500 + ((rlW.getLimitConfig "/x/1").windowMs : Int)) :=
  ⟨by decide,
   fun r hr =>
     (canMakeRequest_sliding_window rlW "/x/1" 500).2.2.2.2.1 (by decide) r hr⟩

/-- Counterexample for C6: with the source's singleton limiter, a request
recorded against one /detail/ URL is not counted when checking a different
/detail/ URL, although both match the same pattern and share one limit
config — each exact URL string has its own window. -/
theorem rateLimiter_per_url_cex :
    (rateLimiterSingleton.recordRequest "/detail/solo-leveling" 0).getLimitConfig
        "/detail/solo-leveling"
      = (rateLimiterSingleton.recordRequest "/detail/solo-leveling" 0).getLimitConfig
        "/detail/another-comic"
    ∧ (((rateLimiterSingleton.recordRequest "/detail/solo-leveling" 0).canMakeRequest
        "/detail/another-comic" 500).1.remaining = 20)
    ∧ mapLookup (rateLimiterSingleton.recordRequest "/detail/solo-leveling" 0).requestHistory
        "/detail/another-comic" = none
    ∧ (((rateLimiterSingleton.recordRequest "/detail/solo-leveling" 0).canMakeRequest
        "/detail/solo-leveling" 500).1.remaining = 19) := by
  exact ⟨by decide, by decide, by decide, by decide⟩

/-- C6 (amended): the rate limiter selects its limit config per endpoint
pattern but tracks timestamps per exact endpoint URL string — recording a
request against one URL changes neither the stored history nor the
admission result of any other URL, even one matching the same pattern. -/
theorem rateLimiter_tracks_per_url (rl : RateLimiter) (ep1 ep2 : String) (t now : Int)
    (h : ep2 ≠ ep1) :
    (rl.recordRequest ep1 t).getLimitConfig ep2 = rl.getLimitConfig ep2
    ∧ mapLookup (rl.recordRequest ep1 t).requestHistory ep2 = mapLookup rl.requestHistory ep2
    ∧ ((rl.recordRequest ep1 t).canMakeRequest ep2 now).1 = (rl.canMakeRequest ep2 now).1 := by
  have hcfg : (rl.recordRequest ep1 t).getLimitConfig ep2 = rl.getLimitConfig ep2 := rfl
  have hl : mapLookup (rl.recordRequest ep1 t).requestHistory ep2
      = mapLookup rl.requestHistory ep2 := by
    simp only [RateLimiter.recordRequest]
    exact mapLookup_mapSet_other _ _ _ _ h
  refine ⟨hcfg, hl, ?_⟩
  simp only [RateLimiter.canMakeRequest, hl, hcfg]

/-- Witness for C6 (amended) at two concrete /detail/ URLs. -/
theorem rateLimiter_tracks_per_url_witness :
    ((rateLimiterSingleton.recordRequest "/detail/a" 0).canMakeRequest "/detail/b" 500).1
      = (rateLimiterSingleton.canMakeRequest "/detail/b" 500).1 :=
  (rateLimiter_tracks_per_url rateLimiterSingleton "/detail/a" "/detail/b" 0 500 (by decide)).2.2

theorem set_useLocalStorage (cm : CacheManager) (k : String) (v : Option Nat) (ttl : Nat)
    (now : Int) : (cm.set k v ttl now).useLocalStorage = cm.useLocalStorage := by
  cases h : cm.useLocalStorage <;>
    simp [CacheManager.set, CacheManager.setToMemory, CacheManager.setToLocalStorage, h]

theorem set_memory_lookup (cm : CacheManager) (k : String) (v : Option Nat) (ttl : Nat)
    (now : Int) (httl : ttl ≠ 0) :
    mapLookup (cm.set k v ttl now).memoryCache k
      = some { data := v, expiresAt := some (now + (ttl : Int)), cachedAt := now } := by
  have hmem : (cm.set k v ttl now).memoryCache = (cm.setToMemory k v ttl now).memoryCache := by
    cases h : cm.useLocalStorage <;>
      simp [CacheManager.set, CacheManager.setToMemory, CacheManager.setToLocalStorage, h,
        if_pos httl]
  rw [hmem]
  simp only [CacheManager.setToMemory, if_pos httl]
  exact mapLookup_mapSet_self _ _ _

theorem set_storage_lookup (cm : CacheManager) (k : String) (v : Option Nat) (ttl : Nat)
    (now : Int) (httl : ttl ≠ 0) (huse : cm.useLocalStorage = true) :
    mapLookup (cm.set k v ttl now).storageData k = some v
    ∧ mapLookup (cm.set k v ttl now).storageTime k = some (now + (ttl : Int)) := by
  have hst : (cm.set k v ttl now).storageData
        = mapSet (cm.setToMemory k v (if ttl ≠ 0 then ttl else cm.defaultTTL) now).storageData
          k v
      ∧ (cm.set k v ttl now).storageTime
        = mapSet (cm.setToMemory k v (if ttl ≠ 0 then ttl else cm.defaultTTL) now).storageTime
          k (now + (ttl : Int)) := by
    constructor <;>
      simp [CacheManager.set, CacheManager.setToLocalStorage, CacheManager.setToMemory, huse,
        if_pos httl]
  refine ⟨?_, ?_⟩
  · rw [hst.1]
    exact mapLookup_mapSet_self _ _ _
  · rw [hst.2]
    exact mapLookup_mapSet_self _ _ _

/-- C3: the cache never serves an entry past its expiry — an expired
memory entry yields null from that tier and is deleted, an expired
persistent entry yields null from that tier and is removed, and for the
combined get: set(k, v, ttl) followed by get(k) after more than ttl has
elapsed returns null, while get(k) at or before now + ttl returns v. -/
theorem cacheManager_ttl (cm : CacheManager) (k : String) (v : Option Nat) (ttl : Nat)
    (now now' : Int) :
    (∀ e x, mapLookup cm.memoryCache k = some e → e.expiresAt = some x → x ≠ 0 → x < now →
      cm.getFromMemory k now = (none, { cm with memoryCache := mapErase cm.memoryCache k }))
    ∧ (∀ d tm, cm.useLocalStorage = true → mapLookup cm.storageData k = some d →
        mapLookup cm.storageTime k = some tm → tm < now →
        cm.getFromLocalStorage k now = (none, cm.removeFromLocalStorage k))
    ∧ (ttl ≠ 0 → 0 ≤ now → now + ttl < now' →
        ((cm.set k v ttl now).get k now').1 = none)
    ∧ (∀ w, v = some w → ttl ≠ 0 → now' ≤ now + ttl →
        ((cm.set k v ttl now).get k now').1 = some w) := by
  refine ⟨?_, ?_, ?_, ?_⟩
  · intro e x hlook hexp hx0 hxnow
    simp only [CacheManager.getFromMemory, hlook]
    rw [if_pos]
    constructor
    · rw [hexp]
      simp [expTruthy, hx0]
    · rw [hexp]
      simpa using hxnow
  · intro d tm huse hd htm htmnow
    simp only [CacheManager.getFromLocalStorage, huse, Bool.not_true, Bool.false_eq_true,
      if_false, hd, htm]
    rw [if_pos htmnow]
  · intro httl hnow hlate
    have hne0 : (now + (ttl : Int)) ≠ 0 := by
      have h0 : (0 : Int) ≤ (ttl : Int) := Int.natCast_nonneg ttl
      have h1 : (1 : Int) ≤ (ttl : Int) := by
        have := httl
        omega
      omega
    have hmemstep : (cm.set k v ttl now).getFromMemory k now'
        = (none, { cm.set k v ttl now with
            memoryCache := mapErase (cm.set k v ttl now).memoryCache k }) := by
      simp only [CacheManager.getFromMemory, set_memory_lookup cm k v ttl now httl]
      rw [if_pos]
      exact ⟨by simp [expTruthy, hne0], by simpa using hlate⟩
    simp only [CacheManager.get, hmemstep]
    cases huse : cm.useLocalStorage with
    | false =>
      have hu : (cm.set k v ttl now).useLocalStorage = false := by
        rw [set_useLocalStorage]
        exact huse
      simp [CacheManager.getFromLocalStorage, hu]
    | true =>
      have hu : (cm.set k v ttl now).useLocalStorage = true := by
        rw [set_useLocalStorage]
        exact huse
      have hsd := (set_storage_lookup cm k v ttl now httl huse).1
      have hstm := (set_storage_lookup cm k v ttl now httl huse).2
      simp [CacheManager.getFromLocalStorage, hu, hsd, hstm, hlate]
  · intro w hw httl hearly
    subst hw
    have hmemstep : (cm.set k (some w) ttl now).getFromMemory k now'
        = (some w, cm.set k (some w) ttl now) := by
      simp only [CacheManager.getFromMemory, set_memory_lookup cm k (some w) ttl now httl]
      rw [if_neg]
      intro hcon
      have := hcon.2
      simp only [Option.getD_some] at this
      omega
    simp only [CacheManager.get, hmemstep]

/-- Witness for C3: the spec's own test values — set with ttl 100 at time
0, read at 150 gives null, read at 90 gives the value. -/
theorem cacheManager_ttl_witness :
    ((({} : CacheManager).set "k" (some 5) 100 0).get "k" 150).1 = none
    ∧ ((({} : CacheManager).set "k" (some 5) 100 0).get "k" 90).1 = some 5 :=
  ⟨(cacheManager_ttl {} "k" (some 5) 100 0 150).2.2.1 (by decide) (by decide) (by decide),
   (cacheManager_ttl {} "k" (some 5) 100 0 90).2.2.2 5 rfl (by decide) (by decide)⟩

/-- C4: the memory tier is capacity-bounded — storing while the map is at
capacity evicts exactly the single first-inserted key (insertion order,
not LRU) before the new entry is inserted, every other key survives
unchanged, and the map's size never exceeds maxCacheSize nor loses the
distinctness of its keys. -/
theorem cacheManager_eviction (cm : CacheManager) (k : String) (v : Option Nat) (ttl : Nat)
    (now : Int) (hnodup : (cm.memoryCache.map Prod.fst).Nodup)
    (hbound : cm.memoryCache.length ≤ cm.maxCacheSize) (hpos : 1 ≤ cm.maxCacheSize) :
    (cm.setToMemory k v ttl now).memoryCache.length ≤ cm.maxCacheSize
    ∧ ((cm.setToMemory k v ttl now).memoryCache.map Prod.fst).Nodup
    ∧ mapLookup (cm.setToMemory k v ttl now).memoryCache k
        = some { data := v,
                 expiresAt := if ttl ≠ 0 then some (now + (ttl : Int)) else none,
                 cachedAt := now }
    ∧ (cm.maxCacheSize ≤ cm.memoryCache.length →
        ∀ k0 e0, cm.memoryCache.head? = some (k0, e0) →
          (k0 ≠ k → mapLookup (cm.setToMemory k v ttl now).memoryCache k0 = none)
          ∧ (∀ k1, k1 ≠ k0 → k1 ≠ k →
              mapLookup (cm.setToMemory k v ttl now).memoryCache k1
                = mapLookup cm.memoryCache k1))
    ∧ (cm.memoryCache.length < cm.maxCacheSize →
        ∀ k1, k1 ≠ k →
          mapLookup (cm.setToMemory k v ttl now).memoryCache k1
            = mapLookup cm.memoryCache k1) := by
  by_cases hfull : cm.maxCacheSize ≤ cm.memoryCache.length
  · cases hmc : cm.memoryCache with
    | nil =>
      rw [hmc] at hfull
      simp only [List.length_nil, Nat.le_zero] at hfull
      omega
    | cons p rest =>
      have hhead : cm.memoryCache.head? = some p := by
        rw [hmc]
        rfl
      have hAE : (cm.setToMemory k v ttl now).memoryCache
          = mapSet (mapErase cm.memoryCache p.1) k
            { data := v, expiresAt := if ttl ≠ 0 then some (now + (ttl : Int)) else none,
              cachedAt := now } := by
        simp only [CacheManager.setToMemory, if_pos hfull, hhead]
      have hmem1 : p.1 ∈ cm.memoryCache.map Prod.fst := by
        rw [hmc]
        exact List.mem_cons_self _ _
      have hlen : (mapErase cm.memoryCache p.1).length + 1 = cm.memoryCache.length :=
        length_mapErase_of_mem _ _ hmem1
      have hsetlen := length_mapSet_le (mapErase cm.memoryCache p.1) k
        ({ data := v, expiresAt := if ttl ≠ 0 then some (now + (ttl : Int)) else none,
           cachedAt := now } : CMEntry)
      refine ⟨?_, ?_, ?_, ?_, ?_⟩
      · rw [hAE]
        omega
      · rw [hAE]
        exact nodup_keys_mapSet _ _ _ (nodup_keys_mapErase _ _ hnodup)
      · rw [hAE]
        exact mapLookup_mapSet_self _ _ _
      · intro _ k0 e0 hh
        have hp : p = (k0, e0) := Option.some.inj hh
        have hp1 : p.1 = k0 := by rw [hp]
        constructor
        · intro hk0
          rw [hAE, hp1]
          rw [mapLookup_mapSet_other _ _ _ _ hk0]
          exact mapLookup_mapErase_self _ _ hnodup
        · intro k1 hk10 hk1k
          rw [hAE, hp1, ← hmc]
          rw [mapLookup_mapSet_other _ _ _ _ hk1k]
          exact mapLookup_mapErase_other _ _ _ hk10
      · intro hlt
        rw [← hmc] at hlt
        omega
  · have hAE : (cm.setToMemory k v ttl now).memoryCache
        = mapSet cm.memoryCache k
          { data := v, expiresAt := if ttl ≠ 0 then some (now + (ttl : Int)) else none,
            cachedAt := now } := by
      simp only [CacheManager.setToMemory, if_neg hfull]
    have hsetlen := length_mapSet_le cm.memoryCache k
      ({ data := v, expiresAt := if ttl ≠ 0 then some (now + (ttl : Int)) else none,
         cachedAt := now } : CMEntry)
    refine ⟨?_, ?_, ?_, ?_, ?_⟩
    · rw [hAE]
      omega
    · rw [hAE]
      exact nodup_keys_mapSet _ _ _ hnodup
    · rw [hAE]
      exact mapLookup_mapSet_self _ _ _
    · intro hfull'
      exact absurd hfull' hfull
    · intro _ k1 hk1
      rw [hAE]
      exact mapLookup_mapSet_other _ _ _ _ hk1

/-- A capacity-2 cache already holding keys a then b (in insertion
order). -/
def cmW : CacheManager :=
  { memoryCache := [("a", { data := some 1, expiresAt := some 100, cachedAt := 0 }),
                    ("b", { data := some 2, expiresAt := some 100, cachedAt := 0 })],
    maxCacheSize := 2 }

/-- Witness for C4: a capacity-2 cache holding keys a then b; storing c
evicts a (the first-inserted key), keeps b, stores c, and stays at size 2. -/
theorem cacheManager_eviction_witness :
    (cmW.setToMemory "c" (some 3) 100 0).memoryCache.length ≤ 2
    ∧ mapLookup (cmW.setToMemory "c" (some 3) 100 0).memoryCache "a" = none
    ∧ mapLookup (cmW.setToMemory "c" (some 3) 100 0).memoryCache "b"
        = mapLookup cmW.memoryCache "b"
    ∧ mapLookup (cmW.setToMemory "c" (some 3) 100 0).memoryCache "c"
        = some { data := some 3, expiresAt := some 100, cachedAt := 0 } := by
  refine ⟨?_, ?_, ?_, ?_⟩
  · exact (cacheManager_eviction cmW "c" (some 3) 100 0 (by decide) (by decide) (by decide)).1
  · exact ((cacheManager_eviction cmW "c" (some 3) 100 0 (by decide) (by decide)
      (by decide)).2.2.2.1 (by decide) "a"
      { data := some 1, expiresAt := some 100, cachedAt := 0 } (by decide)).1 (by decide)
  · exact ((cacheManager_eviction cmW "c" (some 3) 100 0 (by decide) (by decide)
      (by decide)).2.2.2.1 (by decide) "a"
      { data := some 1, expiresAt := some 100, cachedAt := 0 } (by decide)).2 "b"
      (by decide) (by decide)
  · have h := (cacheManager_eviction cmW "c" (some 3) 100 0 (by decide) (by decide)
      (by decide)).2.2.1
    simpa using h

theorem mapErase_of_lookup_none {α : Type} (m : List (String × α)) (k : String)
    (h : mapLookup m k = none) : mapErase m k = m := by
  induction m with
  | nil => rfl
  | cons p rest ih =>
    simp only [mapLookup] at h
    by_cases hp : p.1 = k
    · rw [if_pos hp] at h
      exact Option.noConfusion h
    · rw [if_neg hp] at h
      simp only [mapErase, if_neg hp]
      rw [ih h]

theorem request_dedup_hit (st : WrapperState) (config : RequestConfig) (rlFlag : Bool)
    (now : Int) (nowStr : String) (pid : Nat)
    (h : mapLookup st.pendingRequests (getRequestKey config) = some pid) :
    APIWrapper.request st config true rlFlag now nowStr = (.pendingHit pid, st) := by
  simp [APIWrapper.request, h]

theorem request_dedup_miss_noRateLimit (st : WrapperState) (config : RequestConfig)
    (now : Int) (nowStr : String)
    (h : mapLookup st.pendingRequests (getRequestKey config) = none) :
    APIWrapper.request st config true false now nowStr
      = (.started st.nextPromiseId,
         { st with nextPromiseId := st.nextPromiseId + 1,
                   networkCalls := st.networkCalls + 1,
                   pendingRequests := mapSet st.pendingRequests (getRequestKey config)
                     st.nextPromiseId }) := by
  simp [APIWrapper.request, h]

theorem requestN_pending (config : RequestConfig) (rlFlag : Bool) (now : Int) (nowStr : String)
    (pid : Nat) :
    ∀ n (st : WrapperState),
      mapLookup st.pendingRequests (getRequestKey config) = some pid →
      APIWrapper.requestN config true rlFlag now nowStr n st
        = (List.replicate n (.pendingHit pid), st) := by
  intro n
  induction n with
  | zero => intro st h; rfl
  | succ m ih =>
    intro st h
    have hstep := request_dedup_hit st config rlFlag now nowStr pid h
    simp only [APIWrapper.requestN, hstep, ih st h, List.replicate_succ]

/-- C1: with deduplication enabled and no rate limiting, a request whose
identity key is not in flight starts exactly one physical call and stores
its promise under the key; every one of n further requests with the same
descriptor while it is in flight receives that same promise, changes
nothing (in particular no further network call is issued), and the
in-flight entry is removed exactly once when the call settles — the
cleanup is the same for success and failure, and settling again changes
nothing. -/
theorem request_deduplication (st : WrapperState) (config : RequestConfig) (now : Int)
    (nowStr : String) (n : Nat) (success : Bool)
    (hnodup : (st.pendingRequests.map Prod.fst).Nodup)
    (hfresh : mapLookup st.pendingRequests (getRequestKey config) = none) :
    (APIWrapper.request st config true false now nowStr).1 = .started st.nextPromiseId
    ∧ (APIWrapper.request st config true false now nowStr).2.networkCalls
        = st.networkCalls + 1
    ∧ mapLookup (APIWrapper.request st config true false now nowStr).2.pendingRequests
        (getRequestKey config) = some st.nextPromiseId
    ∧ APIWrapper.requestN config true false now nowStr n
        (APIWrapper.request st config true false now nowStr).2
        = (List.replicate n (.pendingHit st.nextPromiseId),
           (APIWrapper.request st config true false now nowStr).2)
    ∧ mapLookup (APIWrapper.settle (APIWrapper.request st config true false now nowStr).2
          (getRequestKey config) success).pendingRequests (getRequestKey config) = none
    ∧ APIWrapper.settle (APIWrapper.request st config true false now nowStr).2
          (getRequestKey config) true
        = APIWrapper.settle (APIWrapper.request st config true false now nowStr).2
          (getRequestKey config) false
    ∧ APIWrapper.settle (APIWrapper.settle
            (APIWrapper.request st config true false now nowStr).2
            (getRequestKey config) success) (getRequestKey config) success
        = APIWrapper.settle (APIWrapper.request st config true false now nowStr).2
          (getRequestKey config) success := by
  have hreq := request_dedup_miss_noRateLimit st config now nowStr hfresh
  have hlook : mapLookup (APIWrapper.request st config true false now nowStr).2.pendingRequests
      (getRequestKey config) = some st.nextPromiseId := by
    rw [hreq]
    exact mapLookup_mapSet_self _ _ _
  have hsettleLook : mapLookup (APIWrapper.settle (APIWrapper.request st config true false now
      nowStr).2 (getRequestKey config) success).pendingRequests
      (getRequestKey config) = none := by
    rw [hreq]
    simp only [APIWrapper.settle]
    exact mapLookup_mapErase_self _ _ (nodup_keys_mapSet _ _ _ hnodup)
  refine ⟨by rw [hreq], by rw [hreq], hlook, requestN_pending config false now nowStr
    st.nextPromiseId n _ hlook, hsettleLook, rfl, ?_⟩
  simp only [APIWrapper.settle]
  rw [mapErase_of_lookup_none _ _ (by simpa [APIWrapper.settle] using hsettleLook)]

/-- The descriptor of a GET /terbaru?page=1 request. -/
def cfgW : RequestConfig := { method := "get", url := "/terbaru", params := some "page=1" }

/-- Witness for C1: from a fresh wrapper state, one /terbaru request plus
three duplicates yield one started promise, three hits of the same
promise, one physical call, and a single table entry removed on settle. -/
theorem request_deduplication_witness :
    (APIWrapper.request {} cfgW true false 0 "T").1 = .started 0
    ∧ (APIWrapper.request {} cfgW true false 0 "T").2.networkCalls = 1
    ∧ APIWrapper.requestN cfgW true false 0 "T" 3
        (APIWrapper.request {} cfgW true false 0 "T").2
        = (List.replicate 3 (.pendingHit 0), (APIWrapper.request {} cfgW true false 0 "T").2)
    ∧ mapLookup (APIWrapper.settle (APIWrapper.request {} cfgW true false 0 "T").2
        (getRequestKey cfgW) true).pendingRequests (getRequestKey cfgW) = none :=
  ⟨(request_deduplication {} cfgW 0 "T" 3 true (by decide) (by decide)).1,
   (request_deduplication {} cfgW 0 "T" 3 true (by decide) (by decide)).2.1,
   (request_deduplication {} cfgW 0 "T" 3 true (by decide) (by decide)).2.2.2.1,
   (request_deduplication {} cfgW 0 "T" 3 true (by decide) (by decide)).2.2.2.2.1⟩

theorem validatePage_error_val (p : JsParam) (e : ErrObj) (h : validatePage p = .error e) :
    e = plainError "Page must be a positive integer" := by
  cases p with
  | num n =>
    simp only [validatePage] at h
    by_cases hn : n < 1
    · rw [if_pos hn] at h
      exact (Except.error.inj h).symm
    · rw [if_neg hn] at h
      exact Except.noConfusion h
  | nanv => exact (Except.error.inj h).symm
  | str s =>
    simp only [validatePage] at h
    cases hp : jsParseInt s with
    | none =>
      simp only [hp] at h
      exact (Except.error.inj h).symm
    | some m =>
      simp only [hp] at h
      by_cases hm : m < 1
      · rw [if_pos hm] at h
        exact (Except.error.inj h).symm
      · rw [if_neg hm] at h
        exact Except.noConfusion h
  | nullv => exact (Except.error.inj h).symm

theorem validatePage_ok_pos (p : JsParam) (n : Int) (h : validatePage p = .ok n) : 1 ≤ n := by
  cases p with
  | num m =>
    simp only [validatePage] at h
    by_cases hm : m < 1
    · rw [if_pos hm] at h
      exact Except.noConfusion h
    · rw [if_neg hm] at h
      have := Except.ok.inj h
      omega
  | nanv => exact Except.noConfusion h
  | str s =>
    simp only [validatePage] at h
    cases hp : jsParseInt s with
    | none =>
      simp only [hp] at h
      exact Except.noConfusion h
    | some m =>
      simp only [hp] at h
      by_cases hm : m < 1
      · rw [if_pos hm] at h
        exact Except.noConfusion h
      · rw [if_neg hm] at h
        have := Except.ok.inj h
        omega
  | nullv => exact Except.noConfusion h

theorem validateEndpoint_error_val (ep : JsParam) (e : ErrObj)
    (h : validateEndpoint ep = .error e) :
    classifyErrorType (some e) = "validation" ∧ isStandardized e = false := by
  cases ep with
  | str s =>
    simp only [validateEndpoint] at h
    by_cases h1 : s = ""
    · rw [if_pos h1] at h
      cases Except.error.inj h
      exact ⟨by decide, by decide⟩
    · rw [if_neg h1] at h
      by_cases h2 : (jsTrim s).length = 0
      · rw [if_pos h2] at h
        cases Except.error.inj h
        exact ⟨by decide, by decide⟩
      · rw [if_neg h2] at h
        exact Except.noConfusion h
  | num n =>
    cases Except.error.inj h
    exact ⟨by decide, by decide⟩
  | nanv =>
    cases Except.error.inj h
    exact ⟨by decide, by decide⟩
  | nullv =>
    cases Except.error.inj h
    exact ⟨by decide, by decide⟩

theorem validateKeyword_error_val (kw : JsParam) (e : ErrObj)
    (h : validateKeyword kw = .error e) :
    classifyErrorType (some e) = "validation" ∧ isStandardized e = false := by
  cases kw with
  | str s =>
    simp only [validateKeyword] at h
    by_cases h1 : s = ""
    · rw [if_pos h1] at h
      cases Except.error.inj h
      exact ⟨by decide, by decide⟩
    · rw [if_neg h1] at h
      by_cases h2 : (jsTrim s).length = 0
      · rw [if_pos h2] at h
        cases Except.error.inj h
        exact ⟨by decide, by decide⟩
      · rw [if_neg h2] at h
        by_cases h3 : (jsTrim s).length < 2
        · rw [if_pos h3] at h
          cases Except.error.inj h
          exact ⟨by decide, by decide⟩
        · rw [if_neg h3] at h
          exact Except.noConfusion h
  | num n =>
    cases Except.error.inj h
    exact ⟨by decide, by decide⟩
  | nanv =>
    cases Except.error.inj h
    exact ⟨by decide, by decide⟩
  | nullv =>
    cases Except.error.inj h
    exact ⟨by decide, by decide⟩

theorem validateEndpoint_ok_val (ep : JsParam) (u : String)
    (h : validateEndpoint ep = .ok u) : u ≠ "" := by
  cases ep with
  | str s =>
    simp only [validateEndpoint] at h
    by_cases h1 : s = ""
    · rw [if_pos h1] at h
      exact Except.noConfusion h
    · rw [if_neg h1] at h
      by_cases h2 : (jsTrim s).length = 0
      · rw [if_pos h2] at h
        exact Except.noConfusion h
      · rw [if_neg h2] at h
        have hu := Except.ok.inj h
        intro hu0
        rw [hu, hu0] at h2
        exact h2 rfl
  | num n => exact Except.noConfusion h
  | nanv => exact Except.noConfusion h
  | nullv => exact Except.noConfusion h

theorem validateKeyword_ok_val (kw : JsParam) (t : String)
    (h : validateKeyword kw = .ok t) : 2 ≤ t.length := by
  cases kw with
  | str s =>
    simp only [validateKeyword] at h
    by_cases h1 : s = ""
    · rw [if_pos h1] at h
      exact Except.noConfusion h
    · rw [if_neg h1] at h
      by_cases h2 : (jsTrim s).length = 0
      · rw [if_pos h2] at h
        exact Except.noConfusion h
      · rw [if_neg h2] at h
        by_cases h3 : (jsTrim s).length < 2
        · rw [if_pos h3] at h
          exact Except.noConfusion h
        · rw [if_neg h3] at h
          have hu := Except.ok.inj h
          rw [← hu]
          omega
  | num n => exact Except.noConfusion h
  | nanv => exact Except.noConfusion h
  | nullv => exact Except.noConfusion h

/-- C7 (amended): every validating facade method checks its parameters
synchronously and never lets the validation exception escape — an invalid
argument becomes a rejected promise and no request descriptor is built,
a valid one is delegated to the wrapper; the rejected error's message
classifies as VALIDATION under classifyErrorType, but the rejected value
is the raw Error, not in the standardized normalized-error form; the
validated page is at least 1 (the facade's validatePage enforces no upper
bound — only the part_018 variant rejects pages above 1000), the
validated endpoint is non-empty, and the validated keyword has at least
2 characters after trimming. -/
theorem facade_validation (p ep kw : JsParam) :
    (∀ e, komikcastAPI.getTerbaru p ≠ .thrown e)
    ∧ (∀ e, komikcastAPI.getDetail ep ≠ .thrown e)
    ∧ (∀ e, komikcastAPI.search kw ≠ .thrown e)
    ∧ (∀ e, validatePage p = .error e →
        komikcastAPI.getTerbaru p = .rejected e
        ∧ classifyErrorType (some e) = "validation" ∧ isStandardized e = false)
    ∧ (∀ n, validatePage p = .ok n →
        komikcastAPI.getTerbaru p = .requested "/terbaru" (some ("page=" ++ toString n))
        ∧ 1 ≤ n)
    ∧ (∀ e, validateEndpoint ep = .error e →
        komikcastAPI.getDetail ep = .rejected e
        ∧ classifyErrorType (some e) = "validation" ∧ isStandardized e = false)
    ∧ (∀ u, validateEndpoint ep = .ok u →
        komikcastAPI.getDetail ep = .requested ("/detail/" ++ u) none ∧ u ≠ "")
    ∧ (∀ e, validateKeyword kw = .error e →
        komikcastAPI.search kw = .rejected e
        ∧ classifyErrorType (some e) = "validation" ∧ isStandardized e = false)
    ∧ (∀ t, validateKeyword kw = .ok t →
        komikcastAPI.search kw = .requested "/search" (some ("keyword=" ++ t))
        ∧ 2 ≤ t.length)
    ∧ (∀ m : Int, 1000 < m → validatePageMax (.num m)
        = .error (plainError "Page must be less than or equal to 1000")) := by
  refine ⟨?_, ?_, ?_, ?_, ?_, ?_, ?_, ?_, ?_, ?_⟩
  · intro e
    cases hv : validatePage p <;>
      simp [komikcastAPI.getTerbaru, Bind.bind, Except.bind, jsTryCatchReject, hv, pure,
        Except.pure]
  · intro e
    cases hv : validateEndpoint ep <;>
      simp [komikcastAPI.getDetail, Bind.bind, Except.bind, jsTryCatchReject, hv, pure,
        Except.pure]
  · intro e
    cases hv : validateKeyword kw <;>
      simp [komikcastAPI.search, Bind.bind, Except.bind, jsTryCatchReject, hv, pure,
        Except.pure]
  · intro e he
    refine ⟨?_, ?_, ?_⟩
    · simp [komikcastAPI.getTerbaru, Bind.bind, Except.bind, jsTryCatchReject, he]
    · rw [validatePage_error_val p e he]
      decide
    · rw [validatePage_error_val p e he]
      decide
  · intro n hn
    refine ⟨?_, validatePage_ok_pos p n hn⟩
    simp [komikcastAPI.getTerbaru, Bind.bind, Except.bind, jsTryCatchReject, hn, pure,
      Except.pure]
  · intro e he
    exact ⟨by simp [komikcastAPI.getDetail, Bind.bind, Except.bind, jsTryCatchReject, he],
      (validateEndpoint_error_val ep e he).1, (validateEndpoint_error_val ep e he).2⟩
  · intro u hu
    refine ⟨?_, validateEndpoint_ok_val ep u hu⟩
    simp [komikcastAPI.getDetail, Bind.bind, Except.bind, jsTryCatchReject, hu, pure,
      Except.pure]
  · intro e he
    exact ⟨by simp [komikcastAPI.search, Bind.bind, Except.bind, jsTryCatchReject, he],
      (validateKeyword_error_val kw e he).1, (validateKeyword_error_val kw e he).2⟩
  · intro t ht
    refine ⟨?_, validateKeyword_ok_val kw t ht⟩
    simp [komikcastAPI.search, Bind.bind, Except.bind, jsTryCatchReject, ht, pure,
      Except.pure]
  · intro m hm
    have h1 : ¬ m < 1 := by omega
    simp [validatePageMax, validatePage, h1, hm]

/-- Counterexample for C7: the rejected validation error is a plain Error
(no type field, status not the string error), not a VALIDATION Normalized
Error; and the facade's page validator accepts any large page, so there
is no bounded maximum. -/
theorem facade_validation_cex :
    komikcastAPI.getTerbaru (.num 0) = .rejected (plainError "Page must be a positive integer")
    ∧ isStandardized (plainError "Page must be a positive integer") = false
    ∧ (plainError "Page must be a positive integer").etype = none
    ∧ komikcastAPI.getTerbaru (.num 5000) = .requested "/terbaru" (some "page=5000")
    ∧ validatePageMax (.num 5000)
        = .error (plainError "Page must be less than or equal to 1000") := by
  exact ⟨by decide, by decide, by decide, by decide, by decide⟩

/-- Witness for C7 at concrete arguments. -/
theorem facade_validation_witness :
    komikcastAPI.getTerbaru (.num 0) = .rejected (plainError "Page must be a positive integer")
    ∧ classifyErrorType (some (plainError "Page must be a positive integer")) = "validation"
    ∧ komikcastAPI.search (.str " a ")
        = .rejected (plainError "Keyword must be at least 2 characters")
    ∧ komikcastAPI.getDetail (.str " solo-leveling ")
        = .requested "/detail/solo-leveling" none :=
  ⟨((facade_validation (.num 0) (.str "x") (.str "ab")).2.2.2.1 _ (by decide)).1,
   ((facade_validation (.num 0) (.str "x") (.str "ab")).2.2.2.1 _ (by decide)).2.1,
   ((facade_validation (.num 0) (.str "x") (.str " a ")).2.2.2.2.2.2.2.1 _ (by decide)).1,
   ((facade_validation (.num 0) (.str " solo-leveling ") (.str "ab")).2.2.2.2.2.2.1
     "solo-leveling" (by decide)).1⟩
